import Mathlib

/-!
Verification of the opencode-cli-wakatime plugin against its specification.

The program is a TypeScript plugin; we shallowly embed the relevant parts:
JavaScript strings become `List Char`, JavaScript numbers used as counters
and unix timestamps become `Int`, the injected `FileSystemAdapter` becomes a
record of Lean functions, the `Map<string, number>` of pending entities
becomes an insertion-ordered association list, and each stateful method
becomes a state-passing function that also reports its observable effects
(attempted CLI invocations) as data.
-/

/-- A JavaScript string, embedded as its list of characters. -/
abbrev JStr := List Char

/-- Embed a Lean string literal as a `JStr`. -/
def jstr (s : String) : JStr := s.data

/-- JavaScript whitespace characters relevant to `String.prototype.trim`
(restricted to the ASCII range actually occurring in config files). -/
def isWs (c : Char) : Bool :=
  c = ' ' || c = '\t' || c = '\n' || c = '\r' || c = '\x0b' || c = '\x0c'

/-- Auxiliary for `jsSplit`: returns the first separator-free segment and
the list of remaining segments. -/
def splitAux (sep : Char) : List Char → List Char × List (List Char)
  | [] => ([], [])
  | c :: rest =>
    let r := splitAux sep rest
    if c = sep then ([], r.1 :: r.2) else (c :: r.1, r.2)

/-- JavaScript `s.split(sep)` for a single-character separator: splits at
every occurrence, keeping empty segments; `"".split(sep)` is `[""]`. -/
def jsSplit (sep : Char) (l : List Char) : List (List Char) :=
  (splitAux sep l).1 :: (splitAux sep l).2

/-- Remove trailing whitespace. -/
def trimRight (l : List Char) : List Char :=
  (l.reverse.dropWhile isWs).reverse

/-- JavaScript `s.trim()`: strip leading and trailing whitespace. -/
def jsTrim (l : List Char) : List Char :=
  trimRight (l.dropWhile isWs)

/-- Is `c` an ASCII uppercase letter (the range `toLowerCase` affects)? -/
def isUpperA (c : Char) : Bool :=
  decide (65 ≤ c.toNat ∧ c.toNat ≤ 90)

/-- Lowercase one character, as JavaScript `toLowerCase` acts on ASCII. -/
def toLowerChar (c : Char) : Char :=
  if 65 ≤ c.toNat ∧ c.toNat ≤ 90 then Char.ofNat (c.toNat + 32) else c

/-- JavaScript `s.toLowerCase()` on ASCII text. -/
def jsToLower (l : JStr) : JStr := l.map toLowerChar

namespace Options

/-- Embedding of `Options.removeNulls` from `src/unnamed/part_002`:
`s.replace(/\0/g, '')`, deleting every NUL character. -/
def removeNulls (s : JStr) : JStr := s.filter (fun c => c ≠ Char.ofNat 0)

/-- The line-scanning loop of `Options.getSetting`
(`src/unnamed/part_002` lines 58–74): track the current section from
`[name]` headers (lowercased), and inside the target section split each
line on `=`; when the trimmed first part equals the key and there is a
second part, return it trimmed and null-stripped. -/
def scanLines (sec key : JStr) : List JStr → JStr → Option JStr
  | [], _ => none
  | line :: rest, cur =>
    let t := jsTrim line
    if t.head? = some '[' ∧ t.getLast? = some ']' then
      scanLines sec key rest (jsToLower ((t.drop 1).dropLast))
    else if cur = sec then
      match jsSplit '=' line with
      | p0 :: p1 :: _ =>
        if jsTrim p0 = key then some (removeNulls (jsTrim p1))
        else scanLines sec key rest cur
      | _ => scanLines sec key rest cur
    else scanLines sec key rest cur

/-- Embedding of `Options.getSetting` from `src/unnamed/part_002` lines 52–78, applied
to the cached text `content` of the selected config file: an empty or
all-whitespace cache entry yields no result, otherwise the lines of
`content` are scanned with an initially empty current section. -/
def getSetting (content : JStr) (sec key : JStr) : Option JStr :=
  if content = [] then none
  else if jsTrim content = [] then none
  else scanLines sec key (jsSplit '\n' content) []

end Options

/-- Node's `path.isAbsolute` on POSIX paths: starts with a slash. -/
def isAbsolute (p : JStr) : Bool := p.head? = some '/'

/-- Node's `path.join a b` for the shapes occurring here: concatenation
with a single separator (normalization of `.`/`..` segments is not modelled;
no claim depends on it). -/
def joinPath (a b : JStr) : JStr := a ++ '/' :: b

/-- The external capability interface (`FileSystemAdapter`,
`src/unnamed/part_004`), as pure oracles: `existsFn` models `exists`,
`readFile` returns `none` when the read rejects, and `execOk` tells
whether `exec` with the given command, arguments and environment resolves
(`false` = the invocation fails/rejects). -/
structure Adapter where
  existsFn : JStr → Bool
  readFile : JStr → Option JStr
  execOk : JStr → List JStr → JStr → Bool

namespace Dependencies

/-- The fixed binary name `wakatime-cli`. -/
def simpleBinary : JStr := jstr "wakatime-cli"

/-- Embedding of `Dependencies.getCliLocation` from `src/src/dependencies.ts` lines
20–50. The memoization field `cliLocation?: string` is `none` when never
assigned and `some p` once assigned (`p = []` records a miss). Returns the
resolved path (`[]` for a miss) together with the updated field. Note the
guard is JavaScript truthiness: a memoized empty string does not
short-circuit. -/
def getCliLocation (cliLocation : Option JStr) (resourcesLocation : JStr)
    (ex : JStr → Bool) : JStr × Option JStr :=
  match cliLocation with
  | some p =>
    if p ≠ [] then (p, some p)
    else lookup
  | none => lookup
where
  /-- The three candidate paths checked in order, first hit memoized,
  miss memoized as the empty string. -/
  lookup : JStr × Option JStr :=
    let localCliPath := joinPath resourcesLocation simpleBinary
    if ex localCliPath then (localCliPath, some localCliPath)
    else
      let brewCliPath := jstr "/opt/homebrew/bin/wakatime-cli"
      if ex brewCliPath then (brewCliPath, some brewCliPath)
      else
        let oldBrewCliPath := jstr "/usr/local/bin/wakatime-cli"
        if ex oldBrewCliPath then (oldBrewCliPath, some oldBrewCliPath)
        else ([], some [])

end Dependencies

/-- The tracked operation kinds of `trackFileEdit`. -/
inductive Op
  | read
  | write
  | edit
deriving DecidableEq, Repr

/-- The mutable fields of `WakaTimeTracker` (`src/unnamed/part_003` lines
8–20) relevant to the claims, with the `Options.resourcesLocation` it
derives and the `Dependencies.cliLocation` memo flattened in.
`fileEntities` models the insertion-ordered `Map<string, number>`. -/
structure TrackerState where
  workingDirectory : JStr
  resourcesLocation : JStr
  apiKey : Option JStr
  cliLocation : Option JStr
  lastHeartbeatAt : Int
  fileEntities : List (JStr × Int)
deriving DecidableEq, Repr

/-- JavaScript `Map.get`: first binding of the key, if any. -/
def mapGet (m : List (JStr × Int)) (k : JStr) : Option Int :=
  match m with
  | [] => none
  | (k0, v0) :: rest => if k0 = k then some v0 else mapGet rest k

/-- JavaScript `Map.set`: update an existing binding in place, else append. -/
def mapSet (m : List (JStr × Int)) (k : JStr) (v : Int) : List (JStr × Int) :=
  match m with
  | [] => [(k, v)]
  | (k0, v0) :: rest => if k0 = k then (k0, v) :: rest else (k0, v0) :: mapSet rest k v

namespace WakaTimeTracker

/-- The tracker as constructed (`src/unnamed/part_003` lines 17–20):
`lastHeartbeatAt` is `0`, the pending-entity map is empty, and no API key
or CLI location has been resolved yet. -/
def mkTracker (workingDirectory resourcesLocation : JStr) : TrackerState :=
  { workingDirectory := workingDirectory
    resourcesLocation := resourcesLocation
    apiKey := none
    cliLocation := none
    lastHeartbeatAt := 0
    fileEntities := [] }

/-- Embedding of `WakaTimeTracker.calculateLineChanges` (`src/unnamed/part_003` lines
92–99): read the file and count its newline-separated lines; a failed read
yields `0`. -/
def calculateLineChanges (ad : Adapter) (filePath : JStr) : Int :=
  match ad.readFile filePath with
  | some content => ((jsSplit '\n' content).length : Int)
  | none => 0

/-- Embedding of `WakaTimeTracker.shouldSendHeartbeat` (`src/unnamed/part_003` lines
101–104): at least 60 seconds of wall-clock time since the last flush. -/
def shouldSendHeartbeat (now lastHeartbeatAt : Int) : Bool :=
  now - lastHeartbeatAt ≥ 60

/-- One observable per-entity outcome of `sendSingleHeartbeat`: skipped
for a missing API key, skipped for a missing CLI binary, or an `exec` of
the CLI with its argument list and the API key passed via the environment
(`ok` records whether the adapter's invocation resolved). -/
inductive Attempt
  | skippedNoApiKey (entity : JStr)
  | skippedNoCli (entity : JStr)
  | execCall (entity : JStr) (cmd : JStr) (args : List JStr) (envApiKey : JStr) (ok : Bool)
deriving DecidableEq, Repr

/-- Unix-timestamp argument: JavaScript `String(t)`. -/
def timeArg (t : Int) : JStr := (toString t).data

/-- Embedding of `WakaTimeTracker.sendSingleHeartbeat` (`src/unnamed/part_003` lines
112–150): skip if the API key is absent or empty; resolve the CLI
(mutating the memo); skip if it is empty or no longer exists; otherwise
exec `cli --entity <entity> --time <now> --write` with the API key in the
environment, catching a failed invocation. The `lineChanges` parameter is
used only in a debug log line. Returns the attempt and the updated CLI
memo. -/
def sendSingleHeartbeat (apiKey : Option JStr) (cliLocation : Option JStr)
    (resourcesLocation : JStr) (ad : Adapter) (now : Int)
    (entity : JStr) (lineChanges : Int) : Attempt × Option JStr :=
  match apiKey with
  | none => (.skippedNoApiKey entity, cliLocation)
  | some key =>
    if key = [] then (.skippedNoApiKey entity, cliLocation)
    else
      let r := Dependencies.getCliLocation cliLocation resourcesLocation ad.existsFn
      if r.1 = [] ∨ ad.existsFn r.1 = false then (.skippedNoCli entity, r.2)
      else
        let args := [jstr "--entity", entity, jstr "--time", timeArg now, jstr "--write"]
        (.execCall entity r.1 args key (ad.execOk r.1 args key), r.2)

/-- The loop of `WakaTimeTracker.sendHeartbeats` (`src/unnamed/part_003`
lines 106–110): one sequential `sendSingleHeartbeat` per pending entity,
threading the CLI memo. -/
def sendHeartbeatsAux (apiKey : Option JStr) (resourcesLocation : JStr)
    (ad : Adapter) (now : Int) :
    List (JStr × Int) → Option JStr → List Attempt × Option JStr
  | [], cli => ([], cli)
  | (entity, changes) :: rest, cli =>
    let r := sendSingleHeartbeat apiKey cli resourcesLocation ad now entity changes
    let rs := sendHeartbeatsAux apiKey resourcesLocation ad now rest r.2
    (r.1 :: rs.1, rs.2)

/-- Embedding of `WakaTimeTracker.sendHeartbeats`: dispatch every pending entity,
returning the attempts and the state with the updated CLI memo. -/
def sendHeartbeats (st : TrackerState) (ad : Adapter) (now : Int) :
    List Attempt × TrackerState :=
  let r := sendHeartbeatsAux st.apiKey st.resourcesLocation ad now st.fileEntities st.cliLocation
  (r.1, { st with cliLocation := r.2 })

/-- Embedding of `WakaTimeTracker.clearEntities` (`src/unnamed/part_003` lines 152–155):
empty the pending map and stamp the flush time. -/
def clearEntities (st : TrackerState) (now : Int) : TrackerState :=
  { st with fileEntities := [], lastHeartbeatAt := now }

/-- Embedding of `WakaTimeTracker.sendHeartbeat` (`src/unnamed/part_003` lines 65–68),
the unconditional flush: `sendHeartbeats` then `clearEntities`. -/
def sendHeartbeat (st : TrackerState) (ad : Adapter) (now : Int) :
    List Attempt × TrackerState :=
  let r := sendHeartbeats st ad now
  (r.1, clearEntities r.2 now)

/-- Result of one `trackFileEdit` call: the new state, the CLI invocation
attempts it caused, and whether it flushed. -/
structure TrackResult where
  state : TrackerState
  attempts : List Attempt
  didFlush : Bool
deriving DecidableEq, Repr

/-- Embedding of `WakaTimeTracker.trackFileEdit` (`src/unnamed/part_003` lines 37–55):
return early unless the adapter says the given path exists
(`isValidFilePath`, lines 88–90); resolve the absolute path; for
`write`/`edit` add `lineChanges` — or, when that is zero (JavaScript
falsy), the `calculateLineChanges` fallback — to the path's accumulated
count; then flush if `shouldSendHeartbeat`. -/
def trackFileEdit (st : TrackerState) (ad : Adapter) (now : Int)
    (filePath : JStr) (operation : Op) (lineChanges : Int := 0) : TrackResult :=
  if ad.existsFn filePath = false then ⟨st, [], false⟩
  else
    let fullPath := if isAbsolute filePath then filePath
                    else joinPath st.workingDirectory filePath
    let st1 :=
      if operation = Op.write ∨ operation = Op.edit then
        let changes := if lineChanges ≠ 0 then lineChanges
                       else calculateLineChanges ad fullPath
        { st with fileEntities :=
            mapSet st.fileEntities fullPath ((mapGet st.fileEntities fullPath).getD 0 + changes) }
      else st
    if shouldSendHeartbeat now st1.lastHeartbeatAt then
      let r := sendHeartbeats st1 ad now
      ⟨clearEntities r.2 now, r.1, true⟩
    else ⟨st1, [], false⟩

/-- The `exec` invocations among a list of attempts (command, arguments,
environment API key), in order. -/
def execCalls (l : List Attempt) : List (JStr × List JStr × JStr) :=
  l.filterMap fun a =>
    match a with
    | .execCall _ cmd args env _ => some (cmd, args, env)
    | _ => none

/-- A JavaScript value that may appear in a tool-call argument field:
a string or (standing for every non-string value) a number. -/
inductive JsVal
  | vstr (s : JStr)
  | vnum (n : Int)
deriving DecidableEq, Repr

/-- JavaScript truthiness of an argument field: absent (`undefined`) and
the empty string and `0` are falsy. -/
def truthy : Option JsVal → Bool
  | none => false
  | some (.vstr s) => s ≠ []
  | some (.vnum n) => n ≠ 0

/-- JavaScript `a || b`: `a` when truthy, else `b`. -/
def jsOr (a b : Option JsVal) : Option JsVal := if truthy a then a else b

/-- A tool-call arguments object, with the file-path field names the
plugin inspects (`none` = the field is absent). -/
structure ToolArgs where
  filePath : Option JsVal
  file_path : Option JsVal
  path : Option JsVal
deriving DecidableEq, Repr

/-- Embedding of `WakaTimeTracker.trackToolUsage` from `src/unnamed/part_003` lines
57–63. The method reads `args.filePath` with no guard, so a missing
arguments object raises a TypeError, modelled as `Except.error ()`.
Otherwise it either ignores the call (`ok none`) or delegates
(`ok (some (value, operationName))`) to `trackFileEdit` with the field's
value — string or not — and the operation name. -/
def trackToolUsage (toolName : JStr) (args : Option ToolArgs) :
    Except Unit (Option (JsVal × JStr)) :=
  match args with
  | none => Except.error ()
  | some a =>
    Except.ok <|
      match a.filePath with
      | some v =>
        if truthy (some v) then
          if toolName = jstr "read" then some (v, jstr "read")
          else if toolName = jstr "write" ∨ toolName = jstr "edit" then some (v, toolName)
          else none
        else none
      | none => none

/-- Embedding of `WakaTimeTracker.trackToolUsage` from the bundled plugin
`src/.opencode/plugin/wakatime.ts` lines 157–169: `null`/`undefined`
arguments return immediately; the file path is
`args.filePath || args.file_path || args.path`; a falsy or non-string
value returns immediately; `read`/`read_file` delegate a read and
`write`/`write_file`/`edit`/`replace` delegate the tool name. The
returned value is the delegated `trackFileEdit` call, `none` when the
event is ignored; no error is possible. -/
def trackToolUsageBundled (toolName : JStr) (args : Option ToolArgs) :
    Option (JStr × JStr) :=
  match args with
  | none => none
  | some a =>
    match jsOr a.filePath (jsOr a.file_path a.path) with
    | some (.vstr s) =>
      if s = [] then none
      else if toolName = jstr "read" ∨ toolName = jstr "read_file" then some (s, jstr "read")
      else if toolName = jstr "write" ∨ toolName = jstr "write_file"
            ∨ toolName = jstr "edit" ∨ toolName = jstr "replace" then some (s, toolName)
      else none
    | _ => none

end WakaTimeTracker

/-- Concrete adapter for witnesses: every path exists, every file reads as
three lines, every invocation succeeds. -/
def adapterAll : Adapter :=
  { existsFn := fun _ => true
    readFile := fun _ => some (jstr "a\nb\nc")
    execOk := fun _ _ _ => true }

/-- Concrete adapter for witnesses: nothing exists, reads reject,
invocations fail. -/
def adapterVoid : Adapter :=
  { existsFn := fun _ => false
    readFile := fun _ => none
    execOk := fun _ _ _ => false }

/-- Concrete tracker state for witnesses: configured API key and one
pending entity. -/
def sampleState : TrackerState :=
  { workingDirectory := jstr "/wd"
    resourcesLocation := jstr "/home/u/.wakatime"
    apiKey := some (jstr "KEY")
    cliLocation := none
    lastHeartbeatAt := 0
    fileEntities := [(jstr "/f", 2)] }

/-- The entity a dispatch attempt was for. -/
def attemptEntity : WakaTimeTracker.Attempt → JStr
  | .skippedNoApiKey e => e
  | .skippedNoCli e => e
  | .execCall e _ _ _ _ => e

/-! ### Auxiliary lemmas about the embedded string primitives -/

theorem splitAux_cons_ne {sep c : Char} (l : List Char) (h : c ≠ sep) :
    splitAux sep (c :: l) = (c :: (splitAux sep l).1, (splitAux sep l).2) := by
  simp [splitAux, h]

theorem splitAux_cons_self (sep : Char) (l : List Char) :
    splitAux sep (sep :: l) = ([], (splitAux sep l).1 :: (splitAux sep l).2) := by
  simp [splitAux]

theorem splitAux_append_of_not_mem {sep : Char} {a : List Char} (b : List Char)
    (h : sep ∉ a) :
    splitAux sep (a ++ b) = (a ++ (splitAux sep b).1, (splitAux sep b).2) := by
  induction a with
  | nil => simp
  | cons c t ih =>
    have hc : c ≠ sep := fun he => h (he ▸ List.mem_cons_self c t)
    have ht : sep ∉ t := fun hm => h (List.mem_cons_of_mem _ hm)
    simp [splitAux_cons_ne _ hc, ih ht]

theorem splitAux_of_not_mem {sep : Char} {a : List Char} (h : sep ∉ a) :
    splitAux sep a = (a, []) := by
  have := splitAux_append_of_not_mem (b := []) h
  simpa [splitAux] using this

theorem length_dropWhile_le' (p : Char → Bool) (l : List Char) :
    (List.dropWhile p l).length ≤ l.length :=
  (List.dropWhile_suffix p).sublist.length_le

theorem trimRight_concat_ws {c : Char} (l : List Char) (h : isWs c = true) :
    trimRight (l ++ [c]) = trimRight l := by
  simp [trimRight, List.dropWhile_cons, h]

theorem jsTrim_cons_ws {c : Char} (l : List Char) (h : isWs c = true) :
    jsTrim (c :: l) = jsTrim l := by
  simp [jsTrim, List.dropWhile_cons, h]

theorem trimRight_of_last_not_ws {d : Char} (m : List Char) (hd : isWs d = false) :
    trimRight (m ++ [d]) = m ++ [d] := by
  simp [trimRight, List.dropWhile_cons, hd]

theorem jsTrim_of_ends {c d : Char} (m : List Char)
    (hc : isWs c = false) (hd : isWs d = false) :
    jsTrim (c :: m ++ [d]) = c :: m ++ [d] := by
  have h1 : (c :: m ++ [d]).dropWhile isWs = c :: m ++ [d] := by
    simp [List.dropWhile_cons, hc]
  have h2 : trimRight (c :: m ++ [d]) = c :: m ++ [d] := by
    have := trimRight_of_last_not_ws (d := d) (c :: m) hd
    simpa using this
  rw [jsTrim, h1, h2]

theorem length_trimRight_le (l : List Char) : (trimRight l).length ≤ l.length := by
  simp only [trimRight, List.length_reverse]
  calc (l.reverse.dropWhile isWs).length ≤ l.reverse.length := length_dropWhile_le' _ _
    _ = l.length := List.length_reverse l

theorem length_jsTrim_le (l : List Char) : (jsTrim l).length ≤ l.length := by
  simp only [jsTrim]
  calc (trimRight (l.dropWhile isWs)).length ≤ (l.dropWhile isWs).length :=
        length_trimRight_le _
    _ ≤ l.length := length_dropWhile_le' _ _

theorem dropWhile_eq_self_of_jsTrim_eq {l : List Char} (h : jsTrim l = l) :
    l.dropWhile isWs = l := by
  cases l with
  | nil => rfl
  | cons c t =>
    by_cases hws : isWs c = true
    · exfalso
      have h1 : jsTrim (c :: t) = jsTrim t := jsTrim_cons_ws t hws
      have h2 : (jsTrim t).length ≤ t.length := length_jsTrim_le t
      rw [h] at h1
      have h3 : (c :: t).length ≤ t.length := h1 ▸ h2
      rw [List.length_cons] at h3
      omega
    · simp [List.dropWhile_cons, hws]

theorem trimRight_eq_self_of_jsTrim_eq {l : List Char} (h : jsTrim l = l) :
    trimRight l = l := by
  have h1 := dropWhile_eq_self_of_jsTrim_eq h
  rw [jsTrim, h1] at h
  exact h

theorem jsTrim_concat_space {key : JStr} (h : jsTrim key = key) :
    jsTrim (key ++ [' ']) = key := by
  cases key with
  | nil => decide
  | cons c t =>
    have hd := dropWhile_eq_self_of_jsTrim_eq h
    have hc : isWs c = false := by
      by_contra hcc
      have hcc' : isWs c = true := by
        cases hx : isWs c with
        | false => exact absurd hx hcc
        | true => rfl
      rw [List.dropWhile_cons, hcc', if_pos rfl] at hd
      have h1 : (List.dropWhile isWs t).length = t.length + 1 := by
        rw [hd, List.length_cons]
      have h2 := length_dropWhile_le' isWs t
      omega
    have h1 : ((c :: t) ++ [' ']).dropWhile isWs = (c :: t) ++ [' '] := by
      simp [List.dropWhile_cons, hc]
    have h2 : trimRight ((c :: t) ++ [' ']) = trimRight (c :: t) :=
      trimRight_concat_ws (c :: t) (by decide)
    calc jsTrim ((c :: t) ++ [' '])
        = trimRight ((c :: t) ++ [' ']) := by rw [jsTrim, h1]
      _ = trimRight (c :: t) := h2
      _ = c :: t := trimRight_eq_self_of_jsTrim_eq h

theorem jsTrim_cons_space (l : List Char) : jsTrim (' ' :: l) = jsTrim l :=
  jsTrim_cons_ws l (by decide)

theorem jsTrim_ne_nil_of_head {c : Char} (l : List Char) (hc : isWs c = false) :
    jsTrim (c :: l) ≠ [] := by
  intro hnil
  have h1 : (c :: l).dropWhile isWs = c :: l := by simp [List.dropWhile_cons, hc]
  rw [jsTrim, h1, trimRight] at hnil
  have h2 : (c :: l).reverse.dropWhile isWs = [] := by
    have := congrArg List.reverse hnil
    simpa using this
  rw [List.dropWhile_eq_nil_iff] at h2
  have hcmem : c ∈ (c :: l).reverse := by simp
  exact absurd (h2 c hcmem) (by simp [hc])

theorem isUpperA_toLowerChar (c : Char) : isUpperA (toLowerChar c) = false := by
  unfold toLowerChar
  by_cases h : 65 ≤ c.toNat ∧ c.toNat ≤ 90
  · rw [if_pos h]
    have hv : (c.toNat + 32).isValidChar := Or.inl (by omega)
    have ht : (Char.ofNat (c.toNat + 32)).toNat = c.toNat + 32 := by
      rw [Char.ofNat, dif_pos hv]
      rfl
    simp only [isUpperA, ht, decide_eq_false_iff_not]
    omega
  · rw [if_neg h]
    simp only [isUpperA, decide_eq_false_iff_not]
    exact h

theorem isUpperA_of_mem_jsToLower {s : JStr} {c : Char} (h : c ∈ jsToLower s) :
    isUpperA c = false := by
  obtain ⟨d, _, rfl⟩ := List.mem_map.mp h
  exact isUpperA_toLowerChar d

theorem scanLines_none_of_upper {sec key : JStr}
    (hsec : ∃ c ∈ sec, isUpperA c = true) :
    ∀ (lines : List JStr) (cur : JStr), (∀ c ∈ cur, isUpperA c = false) →
      Options.scanLines sec key lines cur = none := by
  intro lines
  induction lines with
  | nil => intro cur _; rfl
  | cons line rest ih =>
    intro cur hcur
    have hne : cur ≠ sec := by
      intro he
      obtain ⟨c, hc, hup⟩ := hsec
      have := hcur c (he ▸ hc)
      rw [this] at hup
      exact Bool.false_ne_true hup
    simp only [Options.scanLines]
    by_cases hh : (jsTrim line).head? = some '[' ∧ (jsTrim line).getLast? = some ']'
    · rw [if_pos hh]
      exact ih _ (fun c hc => isUpperA_of_mem_jsToLower hc)
    · rw [if_neg hh, if_neg hne]
      exact ih cur hcur

/-- C10: section-name case folding in `getSetting` is one-sided: headers
are lowercased before comparison while the caller's section argument is
compared verbatim, so a section argument containing an ASCII uppercase
letter never matches and the result is absent for every config text. -/
theorem c10_uppercase_section_absent (content sec key : JStr)
    (h : ∃ c ∈ sec, isUpperA c = true) :
    Options.getSetting content sec key = none := by
  unfold Options.getSetting
  by_cases h1 : content = []
  · rw [if_pos h1]
  · rw [if_neg h1]
    by_cases h2 : jsTrim content = []
    · rw [if_pos h2]
    · rw [if_neg h2]
      exact scanLines_none_of_upper h _ [] (by intro c hc; cases hc)

/-- Witness for C10 at a concrete config: section argument `"S"` has an
uppercase letter, and lookup in `"[S]\nk = v"` is absent. -/
theorem c10_uppercase_section_absent_witness :
    (∃ c ∈ jstr "S", isUpperA c = true) ∧
      Options.getSetting (jstr "[S]\nk = v") (jstr "S") (jstr "k") = none :=
  ⟨by decide, c10_uppercase_section_absent _ _ _ (by decide)⟩

theorem getSetting_eq_scan {content : JStr} (sec key : JStr)
    (h1 : content ≠ []) (h2 : jsTrim content ≠ []) :
    Options.getSetting content sec key
      = Options.scanLines sec key (jsSplit '\n' content) [] := by
  unfold Options.getSetting
  rw [if_neg h1, if_neg h2]

theorem scanLines_cons_header (sec key line : JStr) (rest : List JStr) (cur : JStr)
    (hh : (jsTrim line).head? = some '[' ∧ (jsTrim line).getLast? = some ']') :
    Options.scanLines sec key (line :: rest) cur
      = Options.scanLines sec key rest (jsToLower (((jsTrim line).drop 1).dropLast)) := by
  simp only [Options.scanLines]
  rw [if_pos hh]

theorem scanLines_cons_kv_hit (sec key line : JStr) (rest : List JStr) (cur : JStr)
    (hh : ¬((jsTrim line).head? = some '[' ∧ (jsTrim line).getLast? = some ']'))
    (hcur : cur = sec) (p0 p1 : JStr) (ps : List JStr)
    (hsplit : jsSplit '=' line = p0 :: p1 :: ps) (hkey : jsTrim p0 = key) :
    Options.scanLines sec key (line :: rest) cur
      = some (Options.removeNulls (jsTrim p1)) := by
  simp only [Options.scanLines]
  rw [if_neg hh, if_pos hcur, hsplit]
  show (if jsTrim p0 = key then some (Options.removeNulls (jsTrim p1))
        else Options.scanLines sec key rest cur) = some (Options.removeNulls (jsTrim p1))
  rw [if_pos hkey]

/-- C3 (amended): for config text `"[sec]\nkey = val"` with a matching
section (case-folded) and key, `getSetting` returns — trimmed and
null-stripped — not the full remainder after the first `=` of the line,
but only the portion of the value before the value's own next `=`
(the code splits the line on every `=` and takes the second part). When
`val` contains no `=`, `(splitAux '=' val).1 = val` and the whole value
is returned. -/
theorem c3_value_before_next_eq (sec key val : JStr)
    (h1 : '\n' ∉ sec) (h2 : '\n' ∉ key) (h3 : '=' ∉ key) (h4 : '\n' ∉ val)
    (h5 : jsTrim key = key)
    (h6 : (jsTrim (key ++ ' ' :: '=' :: ' ' :: val)).head? ≠ some '[') :
    Options.getSetting (('[' :: sec) ++ ']' :: '\n' :: (key ++ ' ' :: '=' :: ' ' :: val))
      (jsToLower sec) key
    = some (Options.removeNulls (jsTrim (splitAux '=' val).1)) := by
  have hnh : ('\n' : Char) ∉ (('[' :: sec) ++ [']']) := by
    intro hmem
    simp only [List.cons_append, List.mem_cons, List.mem_append,
      List.mem_singleton] at hmem
    rcases hmem with h | h | h
    · exact absurd h (by decide)
    · exact h1 h
    · exact absurd h (by decide)
  have hnkv : ('\n' : Char) ∉ (key ++ ' ' :: '=' :: ' ' :: val) := by
    intro hmem
    simp only [List.mem_append, List.mem_cons] at hmem
    rcases hmem with h | h | h | h | h
    · exact h2 h
    · exact absurd h (by decide)
    · exact absurd h (by decide)
    · exact absurd h (by decide)
    · exact h4 h
  have hcontent : (('[' :: sec) ++ ']' :: '\n' :: (key ++ ' ' :: '=' :: ' ' :: val))
      = (('[' :: sec) ++ [']']) ++ '\n' :: (key ++ ' ' :: '=' :: ' ' :: val) := by
    simp
  have hlines : jsSplit '\n' ((('[' :: sec) ++ [']']) ++ '\n' :: (key ++ ' ' :: '=' :: ' ' :: val))
      = [(('[' :: sec) ++ [']']), key ++ ' ' :: '=' :: ' ' :: val] := by
    unfold jsSplit
    rw [splitAux_append_of_not_mem _ hnh, splitAux_cons_self,
      splitAux_of_not_mem hnkv]
    simp
  have hne : (('[' :: sec) ++ [']']) ++ '\n' :: (key ++ ' ' :: '=' :: ' ' :: val) ≠ [] := by
    simp
  have hnt : jsTrim ((('[' :: sec) ++ [']']) ++ '\n' :: (key ++ ' ' :: '=' :: ' ' :: val)) ≠ [] := by
    rw [List.cons_append, List.cons_append]
    exact jsTrim_ne_nil_of_head _ (by decide)
  rw [hcontent, getSetting_eq_scan _ _ hne hnt, hlines]
  have hhdr : jsTrim (('[' :: sec) ++ [']']) = ('[' :: sec) ++ [']'] :=
    jsTrim_of_ends sec (by decide) (by decide)
  have hcond : (jsTrim (('[' :: sec) ++ [']'])).head? = some '['
      ∧ (jsTrim (('[' :: sec) ++ [']'])).getLast? = some ']' := by
    rw [hhdr]
    refine ⟨?_, List.getLast?_concat _⟩
    simp
  rw [scanLines_cons_header _ _ _ _ _ hcond]
  have hcur : jsToLower (((jsTrim (('[' :: sec) ++ [']'])).drop 1).dropLast)
      = jsToLower sec := by
    rw [hhdr, List.cons_append, List.drop_succ_cons, List.drop_zero,
      List.dropLast_concat]
  rw [hcur]
  have hsplitkv : jsSplit '=' (key ++ ' ' :: '=' :: ' ' :: val)
      = (key ++ [' ']) :: (' ' :: (splitAux '=' val).1) :: (splitAux '=' val).2 := by
    have eA : splitAux '=' (' ' :: val)
        = (' ' :: (splitAux '=' val).1, (splitAux '=' val).2) :=
      splitAux_cons_ne _ (by decide)
    have eB : splitAux '=' ('=' :: ' ' :: val)
        = ([], (' ' :: (splitAux '=' val).1) :: (splitAux '=' val).2) := by
      rw [splitAux_cons_self, eA]
    have eC : splitAux '=' (' ' :: '=' :: ' ' :: val)
        = ([' '], (' ' :: (splitAux '=' val).1) :: (splitAux '=' val).2) := by
      rw [splitAux_cons_ne _ (by decide), eB]
    unfold jsSplit
    rw [splitAux_append_of_not_mem _ h3, eC]
  rw [scanLines_cons_kv_hit _ _ _ _ _ (fun hx => h6 hx.1)
    rfl _ _ _ hsplitkv (jsTrim_concat_space h5)]
  rw [jsTrim_cons_space]

/-- C3 counterexample: in `"[s]\nk = a=b"` the value of `k` contains `=`;
the claim says the full remainder `"a=b"` after the first `=` is returned,
but `getSetting` returns just `"a"`. -/
theorem c3_counterexample :
    Options.getSetting (jstr "[s]\nk = a=b") (jstr "s") (jstr "k") = some (jstr "a")
      ∧ jstr "a" ≠ jstr "a=b" := by
  constructor
  · decide
  · decide

/-- Witness for C3 (amended) at `sec = "s"`, `key = "k"`, `val = "a=b"`. -/
theorem c3_value_before_next_eq_witness :
    Options.getSetting (('[' :: jstr "s") ++ ']' :: '\n' :: (jstr "k" ++ ' ' :: '=' :: ' ' :: jstr "a=b"))
      (jsToLower (jstr "s")) (jstr "k")
    = some (Options.removeNulls (jsTrim (splitAux '=' (jstr "a=b")).1)) :=
  c3_value_before_next_eq (jstr "s") (jstr "k") (jstr "a=b")
    (by decide) (by decide) (by decide) (by decide) (by decide) (by decide)

/-! ### Auxiliary lemmas about the tracker -/

theorem trackFileEdit_didFlush (st : TrackerState) (ad : Adapter) (now : Int)
    (fp : JStr) (op : Op) (lc : Int) :
    (WakaTimeTracker.trackFileEdit st ad now fp op lc).didFlush
      = (ad.existsFn fp && WakaTimeTracker.shouldSendHeartbeat now st.lastHeartbeatAt) := by
  cases hex : ad.existsFn fp with
  | false => simp [WakaTimeTracker.trackFileEdit, hex]
  | true =>
    by_cases hop : (op = Op.write ∨ op = Op.edit) <;>
      by_cases hs : WakaTimeTracker.shouldSendHeartbeat now st.lastHeartbeatAt = true <;>
      simp_all [WakaTimeTracker.trackFileEdit, hex, hop]

/-- C1 (amended): a flush is performed by `trackFileEdit` exactly when the
tracked path passes the adapter's existence check AND wall-clock time
since the last flush is at least 60 seconds — regardless of the
operation; in particular a `read` event on an existing file does flush
once the interval has elapsed. -/
theorem c1_flush_trigger (st : TrackerState) (ad : Adapter) (now : Int)
    (fp : JStr) (op : Op) (lc : Int) :
    (WakaTimeTracker.trackFileEdit st ad now fp op lc).didFlush
      = (ad.existsFn fp && WakaTimeTracker.shouldSendHeartbeat now st.lastHeartbeatAt) :=
  trackFileEdit_didFlush st ad now fp op lc

/-- C1 counterexample: a `read` event on an existing file 100 seconds
after the last flush performs a flush (the claim says a read never
flushes). -/
theorem c1_counterexample :
    (WakaTimeTracker.trackFileEdit sampleState adapterAll 100 (jstr "/f") Op.read 0).didFlush
      = true := by decide

/-- C7: when the adapter's existence check fails for the tracked path,
`trackFileEdit` returns with the state unchanged (pending entities and
last-flush timestamp included), performs no CLI invocation attempt, and
does not flush. -/
theorem c7_nonexistent_noop (st : TrackerState) (ad : Adapter) (now : Int)
    (fp : JStr) (op : Op) (lc : Int) (h : ad.existsFn fp = false) :
    WakaTimeTracker.trackFileEdit st ad now fp op lc = ⟨st, [], false⟩ := by
  simp [WakaTimeTracker.trackFileEdit, h]

/-- Witness for C7: a concrete non-existing path leaves a concrete state
untouched. -/
theorem c7_nonexistent_noop_witness :
    adapterVoid.existsFn (jstr "/f") = false ∧
      WakaTimeTracker.trackFileEdit sampleState adapterVoid 100 (jstr "/f") Op.write 3
        = ⟨sampleState, [], false⟩ :=
  ⟨rfl, c7_nonexistent_noop sampleState adapterVoid 100 (jstr "/f") Op.write 3 rfl⟩

/-- C9 (amended): because `lastHeartbeatAt` is initialized to `0` at
construction, the very first tracked event after construction on an
existing file flushes exactly when the wall-clock time is at least 60
(seconds since the epoch) — so for any realistic timestamp it flushes
immediately, but not for every positive time. -/
theorem c9_first_event_flushes (wd res : JStr) (ad : Adapter) (now : Int)
    (fp : JStr) (op : Op) (lc : Int)
    (hex : ad.existsFn fp = true) (ht : 60 ≤ now) :
    (WakaTimeTracker.trackFileEdit (WakaTimeTracker.mkTracker wd res) ad now fp op lc).didFlush
      = true := by
  rw [trackFileEdit_didFlush, hex]
  simp only [WakaTimeTracker.mkTracker, WakaTimeTracker.shouldSendHeartbeat,
    Bool.true_and, decide_eq_true_eq]
  omega

/-- C9 counterexample: at wall-clock time `1` (positive), the first
tracked write after construction does not flush, against the claim that
any positive time suffices. -/
theorem c9_counterexample :
    (0 : Int) < 1 ∧
      (WakaTimeTracker.trackFileEdit (WakaTimeTracker.mkTracker (jstr "/wd") (jstr "/r"))
        adapterAll 1 (jstr "/f") Op.write 1).didFlush = false := by
  constructor
  · decide
  · decide

/-- Witness for C9 (amended) at wall-clock time 100. -/
theorem c9_first_event_flushes_witness :
    adapterAll.existsFn (jstr "/f") = true ∧ (60 : Int) ≤ 100 ∧
      (WakaTimeTracker.trackFileEdit (WakaTimeTracker.mkTracker (jstr "/wd") (jstr "/r"))
        adapterAll 100 (jstr "/f") Op.edit 2).didFlush = true :=
  ⟨rfl, by decide,
    c9_first_event_flushes (jstr "/wd") (jstr "/r") adapterAll 100 (jstr "/f") Op.edit 2
      rfl (by decide)⟩

theorem sendSingleHeartbeat_ignores_changes (ak cli : Option JStr) (res : JStr)
    (ad : Adapter) (now : Int) (e : JStr) (ch1 ch2 : Int) :
    WakaTimeTracker.sendSingleHeartbeat ak cli res ad now e ch1
      = WakaTimeTracker.sendSingleHeartbeat ak cli res ad now e ch2 := rfl

theorem attemptEntity_sendSingleHeartbeat (ak cli : Option JStr) (res : JStr)
    (ad : Adapter) (now : Int) (e : JStr) (ch : Int) :
    attemptEntity (WakaTimeTracker.sendSingleHeartbeat ak cli res ad now e ch).1 = e := by
  cases ak with
  | none => rfl
  | some key =>
    simp only [WakaTimeTracker.sendSingleHeartbeat]
    by_cases hk : key = []
    · rw [if_pos hk]
      rfl
    · rw [if_neg hk]
      by_cases hc : (Dependencies.getCliLocation cli res ad.existsFn).1 = []
          ∨ ad.existsFn (Dependencies.getCliLocation cli res ad.existsFn).1 = false
      · rw [if_pos hc]
        rfl
      · rw [if_neg hc]
        rfl

theorem sendHeartbeatsAux_entities (ak : Option JStr) (res : JStr)
    (ad : Adapter) (now : Int) :
    ∀ (es : List (JStr × Int)) (cli : Option JStr),
      (WakaTimeTracker.sendHeartbeatsAux ak res ad now es cli).1.map attemptEntity
        = es.map Prod.fst := by
  intro es
  induction es with
  | nil => intro cli; rfl
  | cons p t ih =>
    intro cli
    cases p with
    | mk e ch =>
      simp only [WakaTimeTracker.sendHeartbeatsAux, List.map_cons]
      rw [attemptEntity_sendSingleHeartbeat, ih]

theorem sendHeartbeatsAux_length (ak : Option JStr) (res : JStr)
    (ad : Adapter) (now : Int) (es : List (JStr × Int)) (cli : Option JStr) :
    (WakaTimeTracker.sendHeartbeatsAux ak res ad now es cli).1.length = es.length := by
  have h := sendHeartbeatsAux_entities ak res ad now es cli
  have h1 := congrArg List.length h
  simpa using h1

/-- C2: one flush (`sendHeartbeats` followed by `clearEntities`) produces
exactly one CLI invocation attempt per pending entity — the attempts are
in bijection with the pending paths, in order — and the pending-entity
map is empty immediately afterwards, whatever the individual outcomes
(skipped for missing key or CLI, failed, or successful). -/
theorem c2_flush_drains (st : TrackerState) (ad : Adapter) (now : Int) :
    (WakaTimeTracker.sendHeartbeat st ad now).1.length = st.fileEntities.length
    ∧ (WakaTimeTracker.sendHeartbeat st ad now).1.map attemptEntity
        = st.fileEntities.map Prod.fst
    ∧ (WakaTimeTracker.sendHeartbeat st ad now).2.fileEntities = [] := by
  unfold WakaTimeTracker.sendHeartbeat WakaTimeTracker.sendHeartbeats
    WakaTimeTracker.clearEntities
  refine ⟨?_, ?_, rfl⟩
  · exact sendHeartbeatsAux_length _ _ _ _ _ _
  · exact sendHeartbeatsAux_entities _ _ _ _ _ _

/-- C4 counterexample: a lookup that finds nothing stores the empty
sentinel; a subsequent call with the binary now present at the homebrew
path returns that path rather than the memoized empty result — the miss
is not effectively memoized. -/
theorem c4_counterexample :
    (Dependencies.getCliLocation none (jstr "/r") (fun _ => false)).1 = [] ∧
    (Dependencies.getCliLocation none (jstr "/r") (fun _ => false)).2 = some [] ∧
    (Dependencies.getCliLocation (some []) (jstr "/r")
        (fun p => p = jstr "/opt/homebrew/bin/wakatime-cli")).1
      = jstr "/opt/homebrew/bin/wakatime-cli" := by
  refine ⟨by decide, by decide, by decide⟩

/-- C4 (amended): after a miss the empty string is stored, but the
memoization guard is JavaScript truthiness, which treats the stored empty
value as unset: a later `getCliLocation` call behaves exactly like a
first call — it re-checks the filesystem and does detect a binary
installed at a candidate path in the meantime. Only a successful
(nonempty) resolution is effectively memoized. -/
theorem c4_miss_not_memoized (res : JStr) (ex : JStr → Bool) :
    Dependencies.getCliLocation (some []) res ex
      = Dependencies.getCliLocation none res ex := rfl

/-- C5 counterexample: with `lineChangeHint = -1` (not positive) on an
existing 3-line file, the accumulated count becomes `-1`: the hint is
used as-is, not the line-count fallback `3` the claim requires for
non-positive hints. -/
theorem c5_counterexample :
    (WakaTimeTracker.trackFileEdit { sampleState with lastHeartbeatAt := 100, fileEntities := [] }
        adapterAll 100 (jstr "/f") Op.write (-1)).state.fileEntities = [(jstr "/f", -1)]
    ∧ WakaTimeTracker.calculateLineChanges adapterAll (jstr "/f") = 3 := by
  refine ⟨by decide, by decide⟩

/-- C5 (amended): for a `write`/`edit` on an existing path (and no flush
due this call), the accumulated count of the resolved absolute path is
incremented by `lineChangeHint` whenever it is nonzero — negative hints
included — and by the fallback line count from reading the file only when
the hint is zero (JavaScript `lineChanges || fallback`). -/
theorem c5_accumulate (st : TrackerState) (ad : Adapter) (now : Int)
    (fp : JStr) (op : Op) (lc : Int)
    (hop : op = Op.write ∨ op = Op.edit)
    (hex : ad.existsFn fp = true)
    (hs : WakaTimeTracker.shouldSendHeartbeat now st.lastHeartbeatAt = false) :
    (WakaTimeTracker.trackFileEdit st ad now fp op lc).state.fileEntities
      = mapSet st.fileEntities
          (if isAbsolute fp then fp else joinPath st.workingDirectory fp)
          ((mapGet st.fileEntities
              (if isAbsolute fp then fp else joinPath st.workingDirectory fp)).getD 0
            + (if lc ≠ 0 then lc
               else WakaTimeTracker.calculateLineChanges ad
                 (if isAbsolute fp then fp else joinPath st.workingDirectory fp))) := by
  simp [WakaTimeTracker.trackFileEdit, hex, hop, hs]

/-- Witness for C5 (amended): a relative path `"f"` written with hint `0`
falls back to the 3-line count of the file. -/
theorem c5_accumulate_witness :
    (Op.write = Op.write ∨ Op.write = Op.edit) ∧
    adapterAll.existsFn (jstr "f") = true ∧
    WakaTimeTracker.shouldSendHeartbeat 100 ({ sampleState with lastHeartbeatAt := 100 }).lastHeartbeatAt = false ∧
    (WakaTimeTracker.trackFileEdit { sampleState with lastHeartbeatAt := 100 }
        adapterAll 100 (jstr "f") Op.write 0).state.fileEntities
      = mapSet ({ sampleState with lastHeartbeatAt := 100 }).fileEntities
          (if isAbsolute (jstr "f") then jstr "f"
           else joinPath ({ sampleState with lastHeartbeatAt := 100 }).workingDirectory (jstr "f"))
          ((mapGet ({ sampleState with lastHeartbeatAt := 100 }).fileEntities
              (if isAbsolute (jstr "f") then jstr "f"
               else joinPath ({ sampleState with lastHeartbeatAt := 100 }).workingDirectory (jstr "f"))).getD 0
            + (if (0 : Int) ≠ 0 then (0 : Int)
               else WakaTimeTracker.calculateLineChanges adapterAll
                 (if isAbsolute (jstr "f") then jstr "f"
                  else joinPath ({ sampleState with lastHeartbeatAt := 100 }).workingDirectory (jstr "f")))) :=
  ⟨Or.inl rfl, rfl, by decide,
    c5_accumulate { sampleState with lastHeartbeatAt := 100 } adapterAll 100 (jstr "f")
      Op.write 0 (Or.inl rfl) rfl (by decide)⟩

/-- C6: the modular tracker's `trackToolUsage` dereferences
`args.filePath` without any guard, so a call with a missing arguments
object raises a TypeError instead of returning silently — the defensive
behavior the claim (and the bundled plugin, second conjunct) specifies. -/
theorem c6_missing_args_throws :
    WakaTimeTracker.trackToolUsage (jstr "read") none = Except.error ()
    ∧ WakaTimeTracker.trackToolUsageBundled (jstr "read") none = none :=
  ⟨rfl, rfl⟩

theorem sendHeartbeatsAux_map_fst (ak : Option JStr) (res : JStr)
    (ad : Adapter) (now : Int) :
    ∀ (e1 e2 : List (JStr × Int)) (cli : Option JStr),
      e1.map Prod.fst = e2.map Prod.fst →
      WakaTimeTracker.sendHeartbeatsAux ak res ad now e1 cli
        = WakaTimeTracker.sendHeartbeatsAux ak res ad now e2 cli := by
  intro e1
  induction e1 with
  | nil =>
    intro e2 cli h
    cases e2 with
    | nil => rfl
    | cons q t2 => simp at h
  | cons p t ih =>
    intro e2 cli h
    cases e2 with
    | nil => simp at h
    | cons q t2 =>
      cases p with
      | mk pk pv =>
        cases q with
        | mk qk qv =>
          simp only [List.map_cons, List.cons.injEq] at h
          obtain ⟨hk, ht⟩ := h
          subst hk
          simp only [WakaTimeTracker.sendHeartbeatsAux]
          rw [sendSingleHeartbeat_ignores_changes ak cli res ad now pk pv qv, ih t2 _ ht]

/-- C8: the external invocations of a flush do not depend on the
accumulated per-file change counts: two states that differ only in the
counts stored for the same pending paths yield identical sequences of
exec calls (command, argument list, environment API key). -/
theorem c8_counts_invisible (wd res : JStr) (ak cl : Option JStr) (lastHb : Int)
    (e1 e2 : List (JStr × Int)) (ad : Adapter) (now : Int)
    (h : e1.map Prod.fst = e2.map Prod.fst) :
    WakaTimeTracker.execCalls
        (WakaTimeTracker.sendHeartbeat ⟨wd, res, ak, cl, lastHb, e1⟩ ad now).1
      = WakaTimeTracker.execCalls
        (WakaTimeTracker.sendHeartbeat ⟨wd, res, ak, cl, lastHb, e2⟩ ad now).1 := by
  unfold WakaTimeTracker.sendHeartbeat WakaTimeTracker.sendHeartbeats
  simp only []
  rw [sendHeartbeatsAux_map_fst ak res ad now e1 e2 cl h]

/-- Witness for C8: two pending maps over the same paths with different
counts produce the same exec calls. -/
theorem c8_counts_invisible_witness :
    ([(jstr "/a", 1), (jstr "/b", 2)].map Prod.fst
      = [(jstr "/a", 7), (jstr "/b", 9)].map Prod.fst) ∧
    WakaTimeTracker.execCalls
        (WakaTimeTracker.sendHeartbeat
          ⟨jstr "/wd", jstr "/r", some (jstr "KEY"), none, 0, [(jstr "/a", 1), (jstr "/b", 2)]⟩
          adapterAll 100).1
      = WakaTimeTracker.execCalls
        (WakaTimeTracker.sendHeartbeat
          ⟨jstr "/wd", jstr "/r", some (jstr "KEY"), none, 0, [(jstr "/a", 7), (jstr "/b", 9)]⟩
          adapterAll 100).1 :=
  ⟨by decide,
    c8_counts_invisible (jstr "/wd") (jstr "/r") (some (jstr "KEY")) none 0
      [(jstr "/a", 1), (jstr "/b", 2)] [(jstr "/a", 7), (jstr "/b", 9)]
      adapterAll 100 (by decide)⟩
